import Mathlib

/-!
# Verification of the chatur-ques question-database scripts

Shallow embedding of the category-extraction / cleaning / compilation
pipeline of the repository (files `compile2.py`, `src/general_cleaner.py`,
`src/rc_cleaner.py`, `rc_removed.py`).

JSON question records are duck-typed dictionaries in the source; here they
are a structure whose fields are all optional, mirroring `dict.get` with a
default at every use site.  File I/O is modelled by passing the loaded
contents (or a load-failure marker) explicitly; `json.loads` applied to the
external service's textual reply is an uninterpreted parameter
`parse : String → Option (ParsedResult CleanedFields)`, since the JSON
library is external to the repository.  Python string primitives
(`strip`, `startswith`, `endswith`, slicing, `lower`, `upper`) are modelled
explicitly on the character list of a `String`.
-/

set_option autoImplicit false

namespace ChaturQues

/-- A question record: a JSON object whose fields are all optional, as in
the Python dictionaries.  `_id` stands for the `$oid` string inside the
`_id` object of a record (absent when the record has no `_id`). -/
structure Record where
  _id : Option String := none
  question : Option String := none
  options : Option (List String) := none
  answer : Option String := none
  answer_explanation : Option String := none
  category : Option String := none
  difficulty : Option String := none
  user_response : Option String := none
  passage_id : Option String := none
  passage : Option String := none
  deriving DecidableEq, Repr

/-! ## Python string primitives -/

/-- The ASCII whitespace characters removed by Python's `str.strip()`. -/
def isPyWhitespace (c : Char) : Bool :=
  c == ' ' || c == '\t' || c == '\n' || c == '\x0d' ||
  c == '\x0b' || c == '\x0c'

/-- Python `str.strip()` on a character list: drop leading and trailing
whitespace. -/
def stripChars (l : List Char) : List Char :=
  ((l.dropWhile isPyWhitespace).reverse.dropWhile isPyWhitespace).reverse

/-- Python `s.strip()`. -/
def pyStrip (s : String) : String := ⟨stripChars s.data⟩

/-- Python `s.startswith(p)`. -/
def pyStartsWith (s p : String) : Bool := p.data.isPrefixOf s.data

/-- Python `s.endswith(p)`. -/
def pyEndsWith (s p : String) : Bool := p.data.reverse.isPrefixOf s.data.reverse

/-- Python `s[n:]`. -/
def pyDrop (s : String) (n : Nat) : String := ⟨s.data.drop n⟩

/-- Python `s[:-n]` (for `n ≤ len s`; both sides give `""` when the slice
is empty). -/
def pyDropRight (s : String) (n : Nat) : String := ⟨s.data.take (s.data.length - n)⟩

/-- Python `s.lower()`: character-wise lower-casing (ASCII case folding
suffices for the category names used by the scripts). -/
def pyLower (s : String) : String := ⟨s.data.map Char.toLower⟩

/-- Python `s.upper()`. -/
def pyUpper (s : String) : String := ⟨s.data.map Char.toUpper⟩

/-- `q.get('category', '')`: the category of a record, with a missing field
read as the empty string. -/
def getCategory (q : Record) : String := q.category.getD ""

/-! ## The external reply

The external service answers with text that, once stripped of code-fence
markers, is fed to `json.loads`.  The `cleaned_question` object of a
well-formed reply carries the fields below; `_id` and `category` model keys
the reply may also contain but that the reconstruction code never reads. -/

/-- The `cleaned_question` object of a parsed external reply. -/
structure CleanedFields where
  question : Option String := none
  options : Option (List String) := none
  answer : Option String := none
  answer_explanation : Option String := none
  passage : Option String := none
  _id : Option String := none
  category : Option String := none
  deriving DecidableEq, Repr

/-- A parsed external reply: a JSON object that may or may not contain a
`cleaned_question` key (the log-only keys `changes_made`, `issues_found`,
`cleaning_summary` are not modelled).  The payload type is a parameter
because `clean_and_verify_question` replaces the parsed `cleaned_question`
(a `CleanedFields`) with the reconstructed full `Record`. -/
structure ParsedResult (α : Type) where
  cleaned_question : Option α := none
  deriving DecidableEq, Repr

/-- Both cleaners' treatment of the raw reply text before `json.loads`
(general_cleaner.py lines 117–125, rc_cleaner.py lines 99–107):

    response_content = response.choices[0].message.content.strip()
    if response_content.startswith('```json'):
        response_content = response_content[7:]
    if response_content.endswith('```'):
        response_content = response_content[:-3]
    response_content = response_content.strip()
-/
def stripMarkdownFences (raw : String) : String :=
  let c := pyStrip raw
  let c := if pyStartsWith c "```json" then pyDrop c 7 else c
  let c := if pyEndsWith c "```" then pyDropRight c 3 else c
  pyStrip c

namespace GeneralQuestionCleaner

/-- `load_and_filter_questions` (general_cleaner.py lines 17–38), applied to
already-loaded data (a source-load failure returns `[]` and is outside the
claims about the filter itself). -/
def load_and_filter_questions (data : List Record) (category : String) : List Record :=
  let excluded_categories := ["rc", "spatial_reasoning", "abstract_reasoning"]
  if pyLower category == "all" then
    data.filter (fun q => !(excluded_categories.contains (pyLower (getCategory q))))
  else
    data.filter (fun q => pyLower (getCategory q) == pyLower category)

/-- Reconstruction of the full cleaned question from the reply's
`cleaned_question` and the original record (general_cleaner.py
lines 135–153). -/
def reconstruct_full_question (question_data : Record) (cq : CleanedFields) : Record :=
  let full : Record :=
    { _id := question_data._id
      question := some (cq.question.getD "")
      options := some (cq.options.getD [])
      answer := some (cq.answer.getD "")
      answer_explanation := some (cq.answer_explanation.getD "")
      category := some (question_data.category.getD "")
      difficulty := some (question_data.difficulty.getD "medium")
      user_response := some (question_data.user_response.getD "") }
  -- Add passage_id if it exists in the source record
  let full := if question_data.passage_id.isSome then
    { full with passage_id := question_data.passage_id } else full
  -- Add passage if it exists in the source record
  if question_data.passage.isSome then
    { full with passage := question_data.passage } else full

/-- `clean_and_verify_question` (general_cleaner.py lines 40–183), with the
external call and `json.loads` abstracted into `parse` applied to the raw
reply text `raw`: a call or parse failure yields `none` (the Python code
returns `None`), otherwise the parsed result with its `cleaned_question`
replaced by the reconstructed record (when one is present). -/
def clean_and_verify_question (parse : String → Option (ParsedResult CleanedFields))
    (raw : String) (question_data : Record) : Option (ParsedResult Record) :=
  match parse (stripMarkdownFences raw) with
  | none => none
  | some result =>
      some { cleaned_question :=
               result.cleaned_question.map (reconstruct_full_question question_data) }

/-- The identifier used for a question at 1-based position `i` of the batch:
`question.get('_id', {}).get('$oid', f'question_{i}')`. -/
def batchQuestionId (i : Nat) (q : Record) : String :=
  q._id.getD ("question_" ++ toString i)

/-- The per-record loop of `process_questions_by_category`
(general_cleaner.py lines 199–217): `i` is the 1-based index of the first
remaining record, `replies i` the external reply text for the record at
position `i`.  Returns `(cleaned_questions, failed_questions)`. -/
def processQuestionsLoop (parse : String → Option (ParsedResult CleanedFields))
    (replies : Nat → String) : Nat → List Record → List Record × List String
  | _, [] => ([], [])
  | i, q :: qs =>
      let result := clean_and_verify_question parse (replies i) q
      let rest := processQuestionsLoop parse replies (i + 1) qs
      match result with
      | some r =>
          match r.cleaned_question with
          | some cq => (cq :: rest.1, rest.2)
          | none => (rest.1, batchQuestionId i q :: rest.2)
      | none => (rest.1, batchQuestionId i q :: rest.2)

/-- `process_questions_by_category` (general_cleaner.py lines 185–241):
filter, then run the loop from index 1; an empty filtered list is the
error return.  The output file's contents are the cleaned questions. -/
def process_questions_by_category (parse : String → Option (ParsedResult CleanedFields))
    (replies : Nat → String) (data : List Record) (category : String) :
    Option (List Record × List String) :=
  let questions := load_and_filter_questions data category
  if questions.isEmpty then none
  else some (processQuestionsLoop parse replies 1 questions)

end GeneralQuestionCleaner

namespace RCQuestionCleaner

/-- `load_and_filter_rc_questions` (rc_cleaner.py lines 17–31). -/
def load_and_filter_rc_questions (data : List Record) : List Record :=
  data.filter (fun q => pyLower (getCategory q) == "rc")

/-- Reconstruction of the full cleaned RC question (rc_cleaner.py
lines 117–131). -/
def reconstruct_full_question (question_data : Record) (cq : CleanedFields) : Record :=
  { _id := question_data._id
    passage_id := some (question_data.passage_id.getD "")
    passage := some (cq.passage.getD "")
    question := some (cq.question.getD "")
    options := some (cq.options.getD [])
    answer := some (cq.answer.getD "")
    answer_explanation := some (cq.answer_explanation.getD "")
    category := some (question_data.category.getD "rc")
    difficulty := some (question_data.difficulty.getD "medium")
    user_response := some (question_data.user_response.getD "") }

/-- `clean_and_verify_question` (rc_cleaner.py lines 33–157), abstracted as
for the general cleaner. -/
def clean_and_verify_question (parse : String → Option (ParsedResult CleanedFields))
    (raw : String) (question_data : Record) : Option (ParsedResult Record) :=
  match parse (stripMarkdownFences raw) with
  | none => none
  | some result =>
      some { cleaned_question :=
               result.cleaned_question.map (reconstruct_full_question question_data) }

end RCQuestionCleaner

/-! ## compile2.py: extraction and compilation -/

namespace Compile2

/-- `extract_categories_from_main_db` (compile2.py lines 11–46), applied to
an already-loaded main database (`db`): the returned mapping, as an
association list in request order.  A load failure returns the empty
mapping and is modelled by the caller. -/
def extract_categories_from_main_db (db : List Record)
    (categories_to_extract : List String) : List (String × List Record) :=
  categories_to_extract.map (fun category =>
    (category, db.filter (fun q => pyLower (getCategory q) == pyLower category)))

/-- The per-category files written by `extract_categories_from_main_db`
(compile2.py lines 33–40), as pairs of the deterministic file-name prefix
(the timestamp suffix is real time, not modelled) and the written
contents. -/
def extract_categories_writes (db : List Record)
    (categories_to_extract : List String) : List (String × List Record) :=
  categories_to_extract.map (fun category =>
    ("EXTRACTED_" ++ pyUpper category ++ "_", db.filter (fun q => pyLower (getCategory q) == pyLower category)))

/-- The fate of one per-category cleaned file in the working directory:
no glob match, a file whose `json.load` raises, or a loaded list of
records. -/
inductive FileState where
  | absent
  | corrupt
  | loaded (qs : List Record)
  deriving DecidableEq, Repr

/-- Whether a glob pattern matched (the category gets a key in
`found_files`). -/
def FileState.isFound : FileState → Bool
  | .absent => false
  | _ => true

/-- The directory snapshot seen by `find_cleaned_files` (compile2.py
lines 48–70) together with each found file's load outcome: one state per
pattern of the fixed `file_patterns` dictionary. -/
structure FoundFiles where
  critical_reasoning : FileState := .absent
  logical_reasoning : FileState := .absent
  numerical_reasoning : FileState := .absent
  verbal_reasoning : FileState := .absent
  rc : FileState := .absent
  deriving DecidableEq, Repr

/-- `find_cleaned_files`: the `found_files` mapping in `file_patterns`
insertion order, one entry per category whose pattern matched. -/
def find_cleaned_files (fs : FoundFiles) : List (String × FileState) :=
  [("critical_reasoning", fs.critical_reasoning),
   ("logical_reasoning", fs.logical_reasoning),
   ("numerical_reasoning", fs.numerical_reasoning),
   ("verbal_reasoning", fs.verbal_reasoning),
   ("rc", fs.rc)].filter (fun p => p.2.isFound)

/-- `if 'category' not in question: question['category'] = category`
(compile2.py lines 115–117). -/
def tagRecord (category : String) (q : Record) : Record :=
  if q.category = none then { q with category := some category } else q

/-- One iteration of the cleaned-files loop of `compile_all_categories`
(compile2.py lines 109–125): a load failure contributes nothing and
records a count of 0; a loaded file is category-tagged, appended, and
counted. -/
def compileStep (acc : List Record × List (String × Nat)) (p : String × FileState) :
    List Record × List (String × Nat) :=
  match p.2 with
  | .absent => acc
  | .corrupt => (acc.1, acc.2 ++ [(p.1, 0)])
  | .loaded qs =>
      let qs := qs.map (tagRecord p.1)
      (acc.1 ++ qs, acc.2 ++ [(p.1, qs.length)])

/-- `compile_all_categories` (compile2.py lines 72–172), applied to an
already-loaded main database and a directory snapshot: the compiled
collection `all_questions` that is written out, and `category_stats` in
insertion order. -/
def compile_all_categories (mainDb : List Record) (fs : FoundFiles) :
    List Record × List (String × Nat) :=
  let categories_to_extract := ["spatial_reasoning", "abstract_reasoning"]
  let extracted_categories := extract_categories_from_main_db mainDb categories_to_extract
  let start := extracted_categories.foldl
    (fun (acc : List Record × List (String × Nat)) p =>
      (acc.1 ++ p.2, acc.2 ++ [(p.1, p.2.length)]))
    ([], [])
  (find_cleaned_files fs).foldl compileStep start

/-- `category_stats.get(category, 0)` (compile2.py line 156). -/
def statsGet (stats : List (String × Nat)) (category : String) : Nat :=
  ((stats.find? (fun p => p.1 == category)).map (fun p => p.2)).getD 0

/-- The fixed seven-category ordering of the final statistics
(compile2.py lines 149–152). -/
def category_order : List String :=
  ["critical_reasoning", "logical_reasoning", "numerical_reasoning",
   "verbal_reasoning", "rc", "spatial_reasoning", "abstract_reasoning"]

/-- The `TOTAL` reported by the final statistics loop (compile2.py
lines 154–159). -/
def total_questions (stats : List (String × Nat)) : Nat :=
  (category_order.map (statsGet stats)).sum

end Compile2

/-! ## rc_removed.py -/

namespace RCRemoved

/-- `filtered = [item for item in data if item['category'] != 'rc']`
(rc_removed.py line 8): `item['category']` raises `KeyError` when the
field is missing, aborting the whole comprehension, hence the `Option`
result. -/
def filtered : List Record → Option (List Record)
  | [] => some []
  | item :: rest =>
      match item.category with
      | none => none
      | some c =>
          match filtered rest with
          | none => none
          | some rs => some (if c ≠ "rc" then item :: rs else rs)

end RCRemoved

/-! ## Spec-side predicates

Second definitions written from the specification's words, to be compared
with the functions above lifted from the source. -/

/-- The spec's selection predicate: the record's `category` field equals
the target under case-insensitive comparison, a record with no `category`
field being treated as having the empty string. -/
def specCategoryMatches (target : String) (q : Record) : Bool :=
  pyLower (q.category.getD "") == pyLower target

/-- The spec's denylist of categories excluded when the target is
`"all"`. -/
def specDenylist : List String := ["rc", "spatial_reasoning", "abstract_reasoning"]

/-- The spec's keep-predicate for the wildcard target `"all"`: the
record's `category` (case-insensitive, missing read as `""`) is not in the
denylist. -/
def specAllKeep (q : Record) : Bool :=
  !(specDenylist.contains (pyLower (q.category.getD "")))

/-! ## Auxiliary characterisations of the compilation fold -/

namespace Compile2

/-- The records one entry of the cleaned-files mapping contributes to the
compiled collection. -/
def contribOf : String × FileState → List Record
  | (c, .loaded qs) => qs.map (tagRecord c)
  | _ => []

/-- The statistics entry one entry of the cleaned-files mapping
contributes. -/
def statOf : String × FileState → List (String × Nat)
  | (_, .absent) => []
  | (c, .corrupt) => [(c, 0)]
  | (c, .loaded qs) => [(c, qs.length)]

/-- Replace a load failure by a successfully loaded empty file. -/
def decorruptState : FileState → FileState
  | .corrupt => .loaded []
  | st => st

/-- Replace every load failure of a directory snapshot by a successfully
loaded empty file. -/
def decorrupt (fs : FoundFiles) : FoundFiles :=
  { critical_reasoning := decorruptState fs.critical_reasoning
    logical_reasoning := decorruptState fs.logical_reasoning
    numerical_reasoning := decorruptState fs.numerical_reasoning
    verbal_reasoning := decorruptState fs.verbal_reasoning
    rc := decorruptState fs.rc }

/-- The records contributed by the two categories extracted from the main
database. -/
def extractedPart (db : List Record) : List Record :=
  db.filter (fun q => pyLower (getCategory q) == pyLower "spatial_reasoning")
    ++ db.filter (fun q => pyLower (getCategory q) == pyLower "abstract_reasoning")

/-- The statistics entries contributed by the two extracted categories. -/
def extractedStats (db : List Record) : List (String × Nat) :=
  [("spatial_reasoning",
     (db.filter (fun q => pyLower (getCategory q) == pyLower "spatial_reasoning")).length),
   ("abstract_reasoning",
     (db.filter (fun q => pyLower (getCategory q) == pyLower "abstract_reasoning")).length)]

/-- The five category names with cleaned-file glob patterns, in
`file_patterns` order. -/
def cleanedNames : List String :=
  ["critical_reasoning", "logical_reasoning", "numerical_reasoning",
   "verbal_reasoning", "rc"]

end Compile2

/-! ## Concrete sample inputs used by the witnesses -/

/-- A parse function accepting exactly the text `{}`, read as an empty
JSON object. -/
def parseEmptyObj : String → Option (ParsedResult CleanedFields) :=
  fun s => if s = "{}" then some {} else none

/-- A parse function accepting exactly the text `{}`, read as an object
with an empty `cleaned_question`. -/
def parseCleanedObj : String → Option (ParsedResult CleanedFields) :=
  fun s => if s = "{}" then some { cleaned_question := some {} } else none

/-- A parse function rejecting every input. -/
def parseNone : String → Option (ParsedResult CleanedFields) :=
  fun _ => none

/-- A sample reply schedule whose first reply is malformed and whose later
replies are the empty JSON object. -/
def sampleReplies : Nat → String := fun i => if i = 1 then "not json" else "{}"

/-- A sample record carrying an id and a category. -/
def sampleQ : Record :=
  { _id := some "q1", question := some "Q?", category := some "numerical_reasoning" }

/-- A sample record with upper-case category `RC`. -/
def sampleRC : Record := { _id := some "r1", category := some "RC" }

/-- A sample record with category `Rc`. -/
def sampleRc2 : Record := { _id := some "r2", category := some "Rc" }

/-- A sample record with lower-case category `rc`. -/
def sampleRcLower : Record := { _id := some "r3", category := some "rc" }

/-- A sample record with no category field. -/
def sampleNoCat : Record := { _id := some "n1", question := some "N?" }

/-- A sample directory snapshot: two cleaned files present, one of them
unloadable, the rest absent. -/
def sampleFs : Compile2.FoundFiles :=
  { critical_reasoning := .loaded [sampleQ], rc := .corrupt }

/-- A sample directory snapshot with every found file loadable. -/
def sampleFsOk : Compile2.FoundFiles :=
  { critical_reasoning := .loaded [sampleQ, sampleNoCat], rc := .loaded [sampleRcLower] }

/-! ## Helper lemmas -/

theorem isPrefixOf_append_self (a b : List Char) : a.isPrefixOf (a ++ b) = true := by
  induction a with
  | nil => simp [List.isPrefixOf]
  | cons x xs ih => simp [List.isPrefixOf, ih]

theorem dropWhile_keep (c : Char) (l : List Char) (h : isPyWhitespace c = false) :
    (c :: l).dropWhile isPyWhitespace = c :: l := by
  simp [List.dropWhile_cons, h]

/-- A reply wrapped exactly in ```json …``` fences has no surrounding
whitespace, so the initial `strip()` leaves it unchanged. -/
theorem strip_fenced (s : String) :
    pyStrip ("```json" ++ s ++ "```") = "```json" ++ s ++ "```" := by
  have hws : isPyWhitespace '`' = false := by decide
  have hdata : ("```json" ++ s ++ "```").data
      = '`' :: (['`','`','j','s','o','n'] ++ s.data ++ ['`','`','`']) := by
    simp [String.data_append]
  have hrev : ('`' :: (['`','`','j','s','o','n'] ++ s.data ++ ['`','`','`'])).reverse
      = '`' :: '`' :: '`' :: (s.data.reverse ++ ['n','o','s','j','`','`','`']) := by
    simp
  apply String.ext
  show stripChars ("```json" ++ s ++ "```").data = ("```json" ++ s ++ "```").data
  rw [hdata]
  unfold stripChars
  rw [dropWhile_keep _ _ hws, hrev, dropWhile_keep _ _ hws, ← hrev, List.reverse_reverse]

theorem data_fenced (s : String) :
    ("```json" ++ s ++ "```").data = "```json".data ++ (s.data ++ "```".data) := by
  simp [String.data_append]

/-- Stripping the markdown fences of a ```json-wrapped reply yields the
stripped fenced content. -/
theorem stripMarkdownFences_fenced (s : String) :
    stripMarkdownFences ("```json" ++ s ++ "```") = pyStrip s := by
  have h1 : pyStartsWith ("```json" ++ s ++ "```") "```json" = true := by
    unfold pyStartsWith
    rw [data_fenced]
    exact isPrefixOf_append_self _ _
  have h2 : pyDrop ("```json" ++ s ++ "```") 7 = ⟨s.data ++ "```".data⟩ := by
    unfold pyDrop
    congr 1
  have h3 : pyEndsWith (⟨s.data ++ "```".data⟩ : String) "```" = true := by
    unfold pyEndsWith
    show ("```".data.reverse).isPrefixOf ((s.data ++ "```".data).reverse) = true
    rw [List.reverse_append]
    exact isPrefixOf_append_self _ _
  have h4 : pyDropRight (⟨s.data ++ "```".data⟩ : String) 3 = s := by
    unfold pyDropRight
    apply String.ext
    show (s.data ++ "```".data).take ((s.data ++ "```".data).length - 3) = s.data
    have hlen : (s.data ++ "```".data).length - 3 = s.data.length := by
      simp [List.length_append]
    rw [hlen, List.take_left]
  simp only [stripMarkdownFences, strip_fenced, h1, if_true, h2, h3, h4]

theorem pyLower_eq_empty_iff (c : String) : pyLower c = "" ↔ c = "" := by
  cases c with
  | mk d =>
      constructor
      · intro h
        have hd : d.map Char.toLower = [] := congrArg String.data h
        have : d = [] := List.map_eq_nil_iff.mp hd
        simp [this]
      · intro h
        simp only [h]
        rfl

end ChaturQues

namespace ChaturQues

/-- C2 helper: looking up a requested category in the extraction result. -/
theorem extract_find_eq (db : List Record) (cats : List String) (c : String)
    (hc : c ∈ cats) :
    (Compile2.extract_categories_from_main_db db cats).find? (fun p => p.1 == c)
      = some (c, db.filter (specCategoryMatches c)) := by
  induction cats with
  | nil => exact absurd hc (List.not_mem_nil c)
  | cons a as ih =>
      simp only [Compile2.extract_categories_from_main_db, List.map_cons]
      by_cases h : a = c
      · subst h
        rw [List.find?_cons_of_pos _ (by simp)]
        rfl
      · rw [List.find?_cons_of_neg _ (by simp [h])]
        have hc' : c ∈ as := by
          rcases List.mem_cons.mp hc with h' | h'
          · exact absurd h'.symm h
          · exact h'
        exact ih hc'

/-- C2: for every source collection and requested category, extraction
returns exactly the records whose `category` matches case-insensitively
(missing read as `""`), in original relative order. -/
theorem extract_returns_exact_category (db : List Record) (cats : List String)
    (c : String) (hc : c ∈ cats) :
    (Compile2.extract_categories_from_main_db db cats).find? (fun p => p.1 == c)
        = some (c, db.filter (specCategoryMatches c)) ∧
    (∀ r : Record, r ∈ db.filter (specCategoryMatches c) ↔
        r ∈ db ∧ specCategoryMatches c r = true) ∧
    (db.filter (specCategoryMatches c)).Sublist db :=
  ⟨extract_find_eq db cats c hc, fun _ => List.mem_filter, List.filter_sublist db⟩

/-- Witness for C2 at a concrete collection and request list. -/
theorem extract_returns_exact_category_witness :
    (Compile2.extract_categories_from_main_db [sampleRC, sampleQ] ["verbal_reasoning", "rc"]).find?
        (fun p => p.1 == "rc") = some ("rc", [sampleRC]) :=
  ((extract_returns_exact_category [sampleRC, sampleQ] ["verbal_reasoning", "rc"] "rc"
      (by decide)).1).trans (by decide)

/-- C8: an empty requested-category list yields an empty mapping and no
written files. -/
theorem extract_empty_request (db : List Record) :
    Compile2.extract_categories_from_main_db db [] = [] ∧
    Compile2.extract_categories_writes db [] = [] :=
  ⟨rfl, rfl⟩

/-- C4: the pre-cleaning category filter selects the denylist-complement
for target `"all"` and the case-insensitive match otherwise, preserving
relative order. -/
theorem load_and_filter_spec (data : List Record) (category : String) :
    (pyLower category = "all" →
       GeneralQuestionCleaner.load_and_filter_questions data category
         = data.filter specAllKeep) ∧
    (pyLower category ≠ "all" →
       GeneralQuestionCleaner.load_and_filter_questions data category
         = data.filter (specCategoryMatches category)) ∧
    (GeneralQuestionCleaner.load_and_filter_questions data category).Sublist data := by
  unfold GeneralQuestionCleaner.load_and_filter_questions
  refine ⟨fun h => ?_, fun h => ?_, ?_⟩
  · rw [if_pos (by simp [h])]
    rfl
  · rw [if_neg (by simp [h])]
    rfl
  · split <;> exact List.filter_sublist data

/-- Witness for C4 on a concrete collection, for both the wildcard and a
specific category. -/
theorem load_and_filter_spec_witness :
    GeneralQuestionCleaner.load_and_filter_questions [sampleRC, sampleQ] "all" = [sampleQ] ∧
    GeneralQuestionCleaner.load_and_filter_questions [sampleRC, sampleQ] "RC" = [sampleRC] :=
  ⟨((load_and_filter_spec [sampleRC, sampleQ] "all").1 (by decide)).trans (by decide),
   ((load_and_filter_spec [sampleRC, sampleQ] "RC").2.1 (by decide)).trans (by decide)⟩

/-- C10: a record with a missing or empty `category` passes the filter for
target `"all"` and is excluded for any specific non-wildcard category. -/
theorem missing_category_wildcard (data : List Record) (q : Record) (c : String)
    (hq : q.category = none ∨ q.category = some "") :
    (q ∈ GeneralQuestionCleaner.load_and_filter_questions data "all" ↔ q ∈ data) ∧
    (c ≠ "" → pyLower c ≠ "all" →
       q ∉ GeneralQuestionCleaner.load_and_filter_questions data c) := by
  have hcat : q.category.getD "" = "" := by rcases hq with h | h <;> simp [h]
  unfold GeneralQuestionCleaner.load_and_filter_questions
  constructor
  · rw [if_pos (by decide)]
    simp [List.mem_filter, getCategory, hcat]
    intro _
    decide
  · intro hne hall
    rw [if_neg (by simp [hall])]
    simp only [List.mem_filter, getCategory, hcat]
    rintro ⟨-, hbeq⟩
    have heq : pyLower "" = pyLower c := eq_of_beq hbeq
    have h0 : pyLower c = "" := by rw [← heq]; decide
    exact hne ((pyLower_eq_empty_iff c).mp h0)

/-- Witness for C10 on a concrete collection and category. -/
theorem missing_category_wildcard_witness :
    (sampleNoCat ∈ GeneralQuestionCleaner.load_and_filter_questions [sampleNoCat, sampleQ] "all"
       ↔ sampleNoCat ∈ [sampleNoCat, sampleQ]) ∧
    (("rc" : String) ≠ "" → pyLower "rc" ≠ "all" →
       sampleNoCat ∉ GeneralQuestionCleaner.load_and_filter_questions [sampleNoCat, sampleQ] "rc") :=
  missing_category_wildcard [sampleNoCat, sampleQ] sampleNoCat "rc" (Or.inl rfl)

/-- C1: whatever the parsed reply contains, a reconstructed question keeps
the source record's `_id` and `category`, in both cleaners. -/
theorem cleaning_preserves_id_and_category
    (parse : String → Option (ParsedResult CleanedFields)) (raw : String)
    (q : Record) (c : String) (hq : q.category = some c) :
    (∀ r out, GeneralQuestionCleaner.clean_and_verify_question parse raw q = some r →
        r.cleaned_question = some out → out._id = q._id ∧ out.category = some c) ∧
    (∀ r out, RCQuestionCleaner.clean_and_verify_question parse raw q = some r →
        r.cleaned_question = some out → out._id = q._id ∧ out.category = some c) := by
  constructor <;>
  · intro r out hr hout
    rcases hp : parse (stripMarkdownFences raw) with _ | result
    · simp [GeneralQuestionCleaner.clean_and_verify_question,
        RCQuestionCleaner.clean_and_verify_question, hp] at hr
    · simp only [GeneralQuestionCleaner.clean_and_verify_question,
        RCQuestionCleaner.clean_and_verify_question, hp, Option.some.injEq] at hr
      subst hr
      simp only at hout
      rcases Option.map_eq_some'.mp hout with ⟨cq, -, hrec⟩
      subst hrec
      simp only [GeneralQuestionCleaner.reconstruct_full_question,
        RCQuestionCleaner.reconstruct_full_question]
      first
      | (split <;> split <;> simp [hq])
      | simp [hq]

/-- Witness for C1: a concrete record cleaned through a concrete reply. -/
theorem cleaning_preserves_id_and_category_witness :
    (GeneralQuestionCleaner.reconstruct_full_question sampleQ {})._id = sampleQ._id ∧
    (GeneralQuestionCleaner.reconstruct_full_question sampleQ {}).category
      = some "numerical_reasoning" :=
  (cleaning_preserves_id_and_category parseCleanedObj "{}" sampleQ "numerical_reasoning" rfl).1
    { cleaned_question := some (GeneralQuestionCleaner.reconstruct_full_question sampleQ {}) }
    (GeneralQuestionCleaner.reconstruct_full_question sampleQ {}) (by decide) rfl

/-- C9: the RC-removal pass keeps exactly the records whose `category` is
not the exact string `"rc"` (case-sensitively), and fails on any record
with no `category` field at all. -/
theorem rc_removed_exact (data : List Record) :
    ((∀ q ∈ data, (q.category).isSome) →
       RCRemoved.filtered data = some (data.filter (fun q => q.category != some "rc"))) ∧
    (∀ q ∈ data, q.category = none → RCRemoved.filtered data = none) ∧
    (∀ q ∈ data, (q.category = some "RC" ∨ q.category = some "Rc") →
       (∀ q' ∈ data, (q'.category).isSome) →
       ∃ res, RCRemoved.filtered data = some res ∧ q ∈ res) := by
  have key : (∀ q ∈ data, (q.category).isSome) →
      RCRemoved.filtered data = some (data.filter (fun q => q.category != some "rc")) := by
    induction data with
    | nil => intro _; rfl
    | cons it rest ih =>
        intro h
        rcases hcat : it.category with _ | c
        · exact absurd (h it (List.mem_cons_self it rest)) (by simp [hcat])
        · have hrest := ih (fun q hq => h q (List.mem_cons_of_mem it hq))
          by_cases hc : c = "rc"
          · subst hc
            simp [RCRemoved.filtered, hcat, hrest, List.filter_cons, hcat]
          · simp [RCRemoved.filtered, hcat, hrest, List.filter_cons, hc]
  have key2 : ∀ q ∈ data, q.category = none → RCRemoved.filtered data = none := by
    clear key
    induction data with
    | nil => intro q hq; exact absurd hq (List.not_mem_nil q)
    | cons it rest ih =>
        intro q hq hnone
        rcases List.mem_cons.mp hq with h | h
        · subst h
          simp [RCRemoved.filtered, hnone]
        · rcases hcat : it.category with _ | c
          · simp [RCRemoved.filtered, hcat]
          · simp [RCRemoved.filtered, hcat, ih q h hnone]
  refine ⟨key, key2, ?_⟩
  intro q hq hcase hall
  refine ⟨_, key hall, ?_⟩
  rw [List.mem_filter]
  refine ⟨hq, ?_⟩
  rcases hcase with h | h <;> simp [h]

/-- Witness for C9: `RC` and `Rc` records survive the pass, the `rc`
record is removed. -/
theorem rc_removed_exact_witness :
    RCRemoved.filtered [sampleRC, sampleRcLower, sampleRc2]
      = some [sampleRC, sampleRc2] :=
  ((rc_removed_exact [sampleRC, sampleRcLower, sampleRc2]).1 (by decide)).trans (by decide)

/-- The cleaning loop distributes over concatenation of the batch, the
second part starting at the shifted index. -/
theorem processQuestionsLoop_append
    (parse : String → Option (ParsedResult CleanedFields)) (replies : Nat → String)
    (qs₁ qs₂ : List Record) (i : Nat) :
    GeneralQuestionCleaner.processQuestionsLoop parse replies i (qs₁ ++ qs₂)
      = ((GeneralQuestionCleaner.processQuestionsLoop parse replies i qs₁).1
           ++ (GeneralQuestionCleaner.processQuestionsLoop parse replies (i + qs₁.length) qs₂).1,
         (GeneralQuestionCleaner.processQuestionsLoop parse replies i qs₁).2
           ++ (GeneralQuestionCleaner.processQuestionsLoop parse replies (i + qs₁.length) qs₂).2) := by
  induction qs₁ generalizing i with
  | nil => simp [GeneralQuestionCleaner.processQuestionsLoop]
  | cons q qs ih =>
      simp only [List.cons_append, GeneralQuestionCleaner.processQuestionsLoop,
        List.length_cons, List.append_eq]
      have hlen : i + (qs.length + 1) = (i + 1) + qs.length := by omega
      rw [hlen, ih (i + 1)]
      rcases GeneralQuestionCleaner.clean_and_verify_question parse (replies i) q with _ | r
      · simp
      · rcases r with ⟨cqopt⟩
        rcases cqopt with _ | cq <;> simp

/-- C5: a record whose external reply does not parse is recorded in the
failed list and contributes nothing to the cleaned output, while every
record before and after it in the batch is processed as usual. -/
theorem malformed_reply_isolation
    (parse : String → Option (ParsedResult CleanedFields)) (replies : Nat → String)
    (i : Nat) (qs₁ : List Record) (q : Record) (qs₂ : List Record)
    (hfail : parse (stripMarkdownFences (replies (i + qs₁.length))) = none) :
    GeneralQuestionCleaner.processQuestionsLoop parse replies i (qs₁ ++ q :: qs₂)
      = ((GeneralQuestionCleaner.processQuestionsLoop parse replies i qs₁).1
           ++ (GeneralQuestionCleaner.processQuestionsLoop parse replies
                 (i + qs₁.length + 1) qs₂).1,
         (GeneralQuestionCleaner.processQuestionsLoop parse replies i qs₁).2
           ++ GeneralQuestionCleaner.batchQuestionId (i + qs₁.length) q
             :: (GeneralQuestionCleaner.processQuestionsLoop parse replies
                   (i + qs₁.length + 1) qs₂).2) ∧
    GeneralQuestionCleaner.batchQuestionId (i + qs₁.length) q
      ∈ (GeneralQuestionCleaner.processQuestionsLoop parse replies i (qs₁ ++ q :: qs₂)).2 := by
  have hclean : GeneralQuestionCleaner.clean_and_verify_question parse
      (replies (i + qs₁.length)) q = none := by
    simp [GeneralQuestionCleaner.clean_and_verify_question, hfail]
  have hmain : GeneralQuestionCleaner.processQuestionsLoop parse replies i (qs₁ ++ q :: qs₂)
      = ((GeneralQuestionCleaner.processQuestionsLoop parse replies i qs₁).1
           ++ (GeneralQuestionCleaner.processQuestionsLoop parse replies
                 (i + qs₁.length + 1) qs₂).1,
         (GeneralQuestionCleaner.processQuestionsLoop parse replies i qs₁).2
           ++ GeneralQuestionCleaner.batchQuestionId (i + qs₁.length) q
             :: (GeneralQuestionCleaner.processQuestionsLoop parse replies
                   (i + qs₁.length + 1) qs₂).2) := by
    rw [processQuestionsLoop_append parse replies qs₁ (q :: qs₂) i]
    simp only [GeneralQuestionCleaner.processQuestionsLoop, hclean]
  refine ⟨hmain, ?_⟩
  rw [hmain]
  simp

/-- Witness for C5: a two-record batch whose first reply is malformed; the
second record is still cleaned. -/
theorem malformed_reply_isolation_witness :
    GeneralQuestionCleaner.processQuestionsLoop parseCleanedObj sampleReplies 1
        ([] ++ sampleNoCat :: [sampleQ])
      = ((GeneralQuestionCleaner.processQuestionsLoop parseCleanedObj sampleReplies 1 []).1
           ++ (GeneralQuestionCleaner.processQuestionsLoop parseCleanedObj sampleReplies
                 (1 + ([] : List Record).length + 1) [sampleQ]).1,
         (GeneralQuestionCleaner.processQuestionsLoop parseCleanedObj sampleReplies 1 []).2
           ++ GeneralQuestionCleaner.batchQuestionId (1 + ([] : List Record).length) sampleNoCat
             :: (GeneralQuestionCleaner.processQuestionsLoop parseCleanedObj sampleReplies
                   (1 + ([] : List Record).length + 1) [sampleQ]).2) ∧
    GeneralQuestionCleaner.batchQuestionId (1 + ([] : List Record).length) sampleNoCat
      ∈ (GeneralQuestionCleaner.processQuestionsLoop parseCleanedObj sampleReplies 1
           ([] ++ sampleNoCat :: [sampleQ])).2 :=
  malformed_reply_isolation parseCleanedObj sampleReplies 1 [] sampleNoCat [sampleQ] (by decide)

/-- C6 counterexample: a reply wrapped in plain (untagged) code fences whose
fenced content parses is *not* recovered — only the closing fence is
stripped, so the text handed to the JSON parser still carries the opening
fence and the record fails. -/
theorem fence_stripping_counterexample :
    pyStrip "{}" = "{}" ∧
    parseCleanedObj "{}" = some { cleaned_question := some {} } ∧
    stripMarkdownFences "```\n{}\n```" = "```\n{}" ∧
    GeneralQuestionCleaner.clean_and_verify_question parseCleanedObj "```\n{}\n```" sampleQ
      = none ∧
    RCQuestionCleaner.clean_and_verify_question parseCleanedObj "```\n{}\n```" sampleQ
      = none := by
  refine ⟨rfl, rfl, by decide, by decide, by decide⟩

/-- C6 (amended): replies wrapped in ```json-tagged code fences are
stripped before parsing, so such a reply whose stripped fenced content
parses succeeds; and any reply that does not parse after fence stripping
is a per-record failure (the record lands in the failed list), not an
abort. -/
theorem fence_stripping_amended
    (parse : String → Option (ParsedResult CleanedFields)) (s raw : String)
    (q : Record) (r : ParsedResult CleanedFields) :
    stripMarkdownFences ("```json" ++ s ++ "```") = pyStrip s ∧
    (parse (pyStrip s) = some r →
       GeneralQuestionCleaner.clean_and_verify_question parse ("```json" ++ s ++ "```") q
         = some { cleaned_question :=
                    r.cleaned_question.map (GeneralQuestionCleaner.reconstruct_full_question q) } ∧
       RCQuestionCleaner.clean_and_verify_question parse ("```json" ++ s ++ "```") q
         = some { cleaned_question :=
                    r.cleaned_question.map (RCQuestionCleaner.reconstruct_full_question q) }) ∧
    (parse (stripMarkdownFences raw) = none →
       GeneralQuestionCleaner.clean_and_verify_question parse raw q = none ∧
       RCQuestionCleaner.clean_and_verify_question parse raw q = none ∧
       GeneralQuestionCleaner.batchQuestionId 1 q
         ∈ (GeneralQuestionCleaner.processQuestionsLoop parse (fun _ => raw) 1 [q]).2) := by
  refine ⟨stripMarkdownFences_fenced s, fun h => ?_, fun h => ?_⟩
  · constructor <;>
      simp [GeneralQuestionCleaner.clean_and_verify_question,
        RCQuestionCleaner.clean_and_verify_question, stripMarkdownFences_fenced, h]
  · refine ⟨?_, ?_, ?_⟩ <;>
      simp [GeneralQuestionCleaner.clean_and_verify_question,
        RCQuestionCleaner.clean_and_verify_question,
        GeneralQuestionCleaner.processQuestionsLoop, h]

/-- Witness for the amended C6: a concrete fenced reply round-trips, a
concrete garbage reply fails only that record. -/
theorem fence_stripping_amended_witness :
    GeneralQuestionCleaner.clean_and_verify_question parseCleanedObj
        ("```json" ++ "{}" ++ "```") sampleQ
      = some { cleaned_question :=
                 some (GeneralQuestionCleaner.reconstruct_full_question sampleQ {}) } ∧
    GeneralQuestionCleaner.clean_and_verify_question parseCleanedObj "oops" sampleQ = none :=
  ⟨((fence_stripping_amended parseCleanedObj "{}" "oops" sampleQ
        { cleaned_question := some {} }).2.1 (by decide)).1.trans (by decide),
   ((fence_stripping_amended parseCleanedObj "{}" "oops" sampleQ
        { cleaned_question := some {} }).2.2 (by decide)).1⟩

/-! ## The compilation fold in closed form -/

theorem compile_foldl_closed (L : List (String × Compile2.FileState))
    (A : List Record) (S : List (String × Nat)) :
    L.foldl Compile2.compileStep (A, S)
      = (A ++ (L.map Compile2.contribOf).flatten, S ++ L.flatMap Compile2.statOf) := by
  induction L generalizing A S with
  | nil => simp
  | cons p L ih =>
      rcases p with ⟨c, st⟩
      cases st <;>
        simp [Compile2.compileStep, Compile2.contribOf, Compile2.statOf, ih,
          List.append_assoc]

theorem compile_all_closed (mainDb : List Record) (fs : Compile2.FoundFiles) :
    Compile2.compile_all_categories mainDb fs
      = (Compile2.extractedPart mainDb
           ++ ((Compile2.find_cleaned_files fs).map Compile2.contribOf).flatten,
         Compile2.extractedStats mainDb
           ++ (Compile2.find_cleaned_files fs).flatMap Compile2.statOf) := by
  unfold Compile2.compile_all_categories
  rw [compile_foldl_closed]
  simp [Compile2.extract_categories_from_main_db, Compile2.extractedPart,
    Compile2.extractedStats]

theorem find_keys_sublist (fs : Compile2.FoundFiles) :
    ((Compile2.find_cleaned_files fs).map Prod.fst).Sublist Compile2.cleanedNames := by
  have h := List.filter_sublist (l :=
    [("critical_reasoning", fs.critical_reasoning),
     ("logical_reasoning", fs.logical_reasoning),
     ("numerical_reasoning", fs.numerical_reasoning),
     ("verbal_reasoning", fs.verbal_reasoning),
     ("rc", fs.rc)]) (p := fun p => p.2.isFound)
  exact h.map Prod.fst

theorem statOf_keys_sublist (L : List (String × Compile2.FileState)) :
    ((L.flatMap Compile2.statOf).map Prod.fst).Sublist (L.map Prod.fst) := by
  induction L with
  | nil => simp
  | cons p L ih =>
      rcases p with ⟨c, st⟩
      cases st
      · simpa [Compile2.statOf] using ih.cons c
      · simpa [Compile2.statOf] using ih.cons₂ c
      · simpa [Compile2.statOf] using ih.cons₂ c

theorem statOf_sum_eq_contrib_length (L : List (String × Compile2.FileState)) :
    ((L.flatMap Compile2.statOf).map Prod.snd).sum
      = ((L.map Compile2.contribOf).flatten).length := by
  induction L with
  | nil => simp
  | cons p L ih =>
      rcases p with ⟨c, st⟩
      cases st <;> simp [Compile2.statOf, Compile2.contribOf, ih]

theorem statsGet_cons (k : String) (v : Nat) (rest : List (String × Nat)) (c : String) :
    Compile2.statsGet ((k, v) :: rest) c
      = if c = k then v else Compile2.statsGet rest c := by
  by_cases h : c = k
  · subst h
    simp [Compile2.statsGet]
  · rw [if_neg h]
    unfold Compile2.statsGet
    rw [List.find?_cons_of_neg _ (by simpa using Ne.symm h)]

theorem sum_statsGet (stats : List (String × Nat)) :
    ∀ (order : List String), order.Nodup → (stats.map Prod.fst).Nodup →
      (∀ k ∈ stats.map Prod.fst, k ∈ order) →
      (order.map (Compile2.statsGet stats)).sum = (stats.map Prod.snd).sum := by
  induction stats with
  | nil =>
      intro order _ _ _
      have : ∀ c ∈ order, Compile2.statsGet [] c = 0 := by
        intro c _
        rfl
      rw [List.map_congr_left this]
      simp
  | cons e rest ih =>
      rcases e with ⟨k, v⟩
      intro order hord hnd hsub
      obtain ⟨o₁, o₂, rfl⟩ := List.append_of_mem (hsub k (by simp))
      have hmid := List.nodup_middle.mp hord
      have hk12 : k ∉ o₁ ++ o₂ := (List.nodup_cons.mp hmid).1
      have hord' : (o₁ ++ o₂).Nodup := (List.nodup_cons.mp hmid).2
      have hndr : (rest.map Prod.fst).Nodup := (List.nodup_cons.mp (by simpa using hnd)).2
      have hkr : k ∉ rest.map Prod.fst := (List.nodup_cons.mp (by simpa using hnd)).1
      have hsub' : ∀ k' ∈ rest.map Prod.fst, k' ∈ o₁ ++ o₂ := by
        intro k' hk'
        have h1 : k' ∈ o₁ ++ k :: o₂ := hsub k' (by simp [hk'])
        have h2 : k' ≠ k := by
          intro he
          exact hkr (he ▸ hk')
        rcases List.mem_append.mp h1 with h | h
        · exact List.mem_append.mpr (Or.inl h)
        · rcases List.mem_cons.mp h with h | h
          · exact absurd h h2
          · exact List.mem_append.mpr (Or.inr h)
      have hcong : ∀ c ∈ o₁ ++ o₂,
          Compile2.statsGet ((k, v) :: rest) c = Compile2.statsGet rest c := by
        intro c hc
        have hck : c ≠ k := by
          intro he
          exact hk12 (he ▸ hc)
        rw [statsGet_cons, if_neg hck]
      have hself : Compile2.statsGet ((k, v) :: rest) k = v := by
        rw [statsGet_cons, if_pos rfl]
      calc ((o₁ ++ k :: o₂).map (Compile2.statsGet ((k, v) :: rest))).sum
          = ((o₁.map (Compile2.statsGet ((k, v) :: rest))).sum
              + (v + (o₂.map (Compile2.statsGet ((k, v) :: rest))).sum)) := by
            simp [hself]
        _ = ((o₁ ++ o₂).map (Compile2.statsGet ((k, v) :: rest))).sum + v := by
            simp [List.map_append, List.sum_append]
            omega
        _ = ((o₁ ++ o₂).map (Compile2.statsGet rest)).sum + v := by
            rw [List.map_congr_left hcong]
        _ = (rest.map Prod.snd).sum + v := by rw [ih (o₁ ++ o₂) hord' hndr hsub']
        _ = (((k, v) :: rest).map Prod.snd).sum := by simp; omega

/-- C3: when every discovered cleaned file loads, the seven-category total
reported by the final statistics equals the length of the compiled
collection. -/
theorem compiled_total_consistent (mainDb : List Record) (fs : Compile2.FoundFiles)
    (hok : ∀ p ∈ Compile2.find_cleaned_files fs, p.2 ≠ Compile2.FileState.corrupt) :
    Compile2.total_questions (Compile2.compile_all_categories mainDb fs).2
      = (Compile2.compile_all_categories mainDb fs).1.length := by
  clear hok
  rw [compile_all_closed]
  have hkeys : (Compile2.extractedStats mainDb
        ++ (Compile2.find_cleaned_files fs).flatMap Compile2.statOf).map Prod.fst
      = ["spatial_reasoning", "abstract_reasoning"]
          ++ ((Compile2.find_cleaned_files fs).flatMap Compile2.statOf).map Prod.fst := by
    simp [Compile2.extractedStats]
  have hsub7 : ((Compile2.extractedStats mainDb
        ++ (Compile2.find_cleaned_files fs).flatMap Compile2.statOf).map Prod.fst).Sublist
      (["spatial_reasoning", "abstract_reasoning"] ++ Compile2.cleanedNames) := by
    rw [hkeys]
    exact ((statOf_keys_sublist _).trans (find_keys_sublist fs)).append_left _
  have hnd : ((Compile2.extractedStats mainDb
        ++ (Compile2.find_cleaned_files fs).flatMap Compile2.statOf).map Prod.fst).Nodup :=
    List.Nodup.sublist hsub7
      (by decide : (["spatial_reasoning", "abstract_reasoning"]
          ++ Compile2.cleanedNames).Nodup)
  have hmem : ∀ k ∈ (Compile2.extractedStats mainDb
        ++ (Compile2.find_cleaned_files fs).flatMap Compile2.statOf).map Prod.fst,
      k ∈ Compile2.category_order := by
    intro k hk
    have h7 : k ∈ ["spatial_reasoning", "abstract_reasoning"] ++ Compile2.cleanedNames :=
      hsub7.subset hk
    simp only [Compile2.cleanedNames, List.mem_append, List.mem_cons,
      List.not_mem_nil, or_false] at h7
    rcases h7 with (rfl | rfl) | (rfl | rfl | rfl | rfl | rfl) <;> decide
  show Compile2.total_questions _ = _
  unfold Compile2.total_questions
  rw [sum_statsGet _ Compile2.category_order (by decide) hnd hmem]
  simp [Compile2.extractedStats, Compile2.extractedPart, statOf_sum_eq_contrib_length]

/-- Witness for C3 on a concrete database and directory snapshot. -/
theorem compiled_total_consistent_witness :
    Compile2.total_questions
        (Compile2.compile_all_categories [sampleRcLower, sampleQ] sampleFsOk).2
      = (Compile2.compile_all_categories [sampleRcLower, sampleQ] sampleFsOk).1.length :=
  compiled_total_consistent [sampleRcLower, sampleQ] sampleFsOk (by decide)

/-! ## Load-failure isolation (C7) -/

theorem decorruptState_isFound (st : Compile2.FileState) :
    (Compile2.decorruptState st).isFound = st.isFound := by
  cases st <;> rfl

theorem contribOf_decorrupt (p : String × Compile2.FileState) :
    Compile2.contribOf (p.1, Compile2.decorruptState p.2) = Compile2.contribOf p := by
  rcases p with ⟨c, st⟩
  cases st <;> rfl

theorem statOf_decorrupt (p : String × Compile2.FileState) :
    Compile2.statOf (p.1, Compile2.decorruptState p.2) = Compile2.statOf p := by
  rcases p with ⟨c, st⟩
  cases st <;> rfl

theorem find_decorrupt (fs : Compile2.FoundFiles) :
    Compile2.find_cleaned_files (Compile2.decorrupt fs)
      = (Compile2.find_cleaned_files fs).map
          (fun p => (p.1, Compile2.decorruptState p.2)) := by
  show ([("critical_reasoning", fs.critical_reasoning),
     ("logical_reasoning", fs.logical_reasoning),
     ("numerical_reasoning", fs.numerical_reasoning),
     ("verbal_reasoning", fs.verbal_reasoning),
     ("rc", fs.rc)].map (fun p => (p.1, Compile2.decorruptState p.2))).filter
        (fun p => p.2.isFound)
      = _
  rw [List.filter_map]
  congr 1
  apply List.filter_congr
  intro p _
  simp [Function.comp, decorruptState_isFound]

theorem flatMap_congr_left {α β : Type} (L : List α) (f g : α → List β)
    (h : ∀ a ∈ L, f a = g a) : L.flatMap f = L.flatMap g := by
  induction L with
  | nil => rfl
  | cons a L ih =>
      rw [List.flatMap_cons, List.flatMap_cons, h a (by simp),
        ih (fun a ha => h a (by simp [ha]))]

theorem find?_flatMap_statOf_corrupt (L : List (String × Compile2.FileState)) (c : String)
    (hnd : (L.map Prod.fst).Nodup) (hmem : (c, Compile2.FileState.corrupt) ∈ L) :
    (L.flatMap Compile2.statOf).find? (fun p => p.1 == c) = some (c, 0) := by
  induction L with
  | nil => cases hmem
  | cons p L ih =>
      rcases p with ⟨k, st⟩
      have hndL : (L.map Prod.fst).Nodup := (List.nodup_cons.mp (by simpa using hnd)).2
      have hkL : k ∉ L.map Prod.fst := (List.nodup_cons.mp (by simpa using hnd)).1
      rcases List.mem_cons.mp hmem with h | h
      · have h1 : c = k := congrArg Prod.fst h
        have h2 : Compile2.FileState.corrupt = st := congrArg Prod.snd h
        subst h1
        subst h2
        rw [List.flatMap_cons]
        show (((c, 0) : String × Nat) :: L.flatMap Compile2.statOf).find?
            (fun p => p.1 == c) = some (c, 0)
        rw [List.find?_cons_of_pos _ (by simp)]
      · have hk : k ≠ c := by
          intro he
          exact hkL (he ▸ List.mem_map.mpr ⟨(c, Compile2.FileState.corrupt), h, rfl⟩)
        rw [List.flatMap_cons, List.find?_append]
        cases st <;>
          simp [Compile2.statOf, List.find?_cons_of_neg, hk, ih hndL h]

theorem statsGet_append_of_ne (S₁ S₂ : List (String × Nat)) (c : String)
    (h : ∀ p ∈ S₁, p.1 ≠ c) :
    Compile2.statsGet (S₁ ++ S₂) c = Compile2.statsGet S₂ c := by
  unfold Compile2.statsGet
  rw [List.find?_append, List.find?_eq_none.mpr (fun p hp => by simp [h p hp])]
  simp

/-- C7: a cleaned file that fails to load contributes nothing (the run is
the same as with a loaded empty file), is recorded with count 0, and every
loaded record lacking a `category` is tagged with its file's category. -/
theorem load_failure_isolation (mainDb : List Record) (fs : Compile2.FoundFiles) :
    Compile2.compile_all_categories mainDb fs
      = Compile2.compile_all_categories mainDb (Compile2.decorrupt fs) ∧
    (∀ c, (c, Compile2.FileState.corrupt) ∈ Compile2.find_cleaned_files fs →
       Compile2.statsGet (Compile2.compile_all_categories mainDb fs).2 c = 0) ∧
    (∀ c qs, (c, Compile2.FileState.loaded qs) ∈ Compile2.find_cleaned_files fs →
       ∃ pre post, (Compile2.compile_all_categories mainDb fs).1
         = pre ++ qs.map (Compile2.tagRecord c) ++ post) ∧
    (∀ c q, q.category = none →
       Compile2.tagRecord c q = { q with category := some c }) ∧
    (∀ c q, q.category ≠ none → Compile2.tagRecord c q = q) := by
  have hndkeys : ((Compile2.find_cleaned_files fs).map Prod.fst).Nodup :=
    List.Nodup.sublist (find_keys_sublist fs)
      (by decide : Compile2.cleanedNames.Nodup)
  refine ⟨?_, ?_, ?_, ?_, ?_⟩
  · rw [compile_all_closed, compile_all_closed, find_decorrupt]
    rw [List.map_map, List.flatMap_map]
    simp only [Function.comp_def]
    have hmapc : List.map (fun p => Compile2.contribOf (p.1, Compile2.decorruptState p.2))
        (Compile2.find_cleaned_files fs)
        = List.map Compile2.contribOf (Compile2.find_cleaned_files fs) :=
      List.map_congr_left (fun p _ => contribOf_decorrupt p)
    have hfm : (Compile2.find_cleaned_files fs).flatMap
        (fun p => Compile2.statOf (p.1, Compile2.decorruptState p.2))
        = (Compile2.find_cleaned_files fs).flatMap Compile2.statOf :=
      flatMap_congr_left _ _ _ (fun p _ => statOf_decorrupt p)
    rw [hmapc, hfm]
  · intro c hmem
    have hc5 : c ∈ Compile2.cleanedNames :=
      (find_keys_sublist fs).subset
        (List.mem_map.mpr ⟨(c, Compile2.FileState.corrupt), hmem, rfl⟩)
    rw [compile_all_closed]
    show Compile2.statsGet (Compile2.extractedStats mainDb
        ++ (Compile2.find_cleaned_files fs).flatMap Compile2.statOf) c = 0
    rw [statsGet_append_of_ne]
    · unfold Compile2.statsGet
      rw [find?_flatMap_statOf_corrupt _ c hndkeys hmem]
      rfl
    · intro p hp he
      have hcn : p.1 ∈ Compile2.cleanedNames := he.symm ▸ hc5
      simp only [Compile2.extractedStats, List.mem_cons, List.not_mem_nil,
        or_false] at hp
      rcases hp with rfl | rfl
      · exact absurd (show "spatial_reasoning" ∈ Compile2.cleanedNames from hcn) (by decide)
      · exact absurd (show "abstract_reasoning" ∈ Compile2.cleanedNames from hcn) (by decide)
  · intro c qs hmem
    obtain ⟨u, v, huv⟩ := List.append_of_mem hmem
    refine ⟨Compile2.extractedPart mainDb ++ (u.map Compile2.contribOf).flatten,
      (v.map Compile2.contribOf).flatten, ?_⟩
    rw [compile_all_closed]
    show Compile2.extractedPart mainDb
        ++ ((Compile2.find_cleaned_files fs).map Compile2.contribOf).flatten = _
    rw [huv]
    simp [Compile2.contribOf, List.append_assoc]
  · intro c q h
    simp [Compile2.tagRecord, h]
  · intro c q h
    simp [Compile2.tagRecord, h]

/-- Witness for C7 on a concrete snapshot with one unloadable file. -/
theorem load_failure_isolation_witness :
    Compile2.compile_all_categories [] sampleFs
      = Compile2.compile_all_categories [] (Compile2.decorrupt sampleFs) ∧
    Compile2.statsGet (Compile2.compile_all_categories [] sampleFs).2 "rc" = 0 ∧
    Compile2.tagRecord "rc" sampleNoCat = { sampleNoCat with category := some "rc" } :=
  ⟨(load_failure_isolation [] sampleFs).1,
   (load_failure_isolation [] sampleFs).2.1 "rc" (by decide),
   (load_failure_isolation [] sampleFs).2.2.2.1 "rc" sampleNoCat rfl⟩

end ChaturQues
